import Mathlib

/-!
Shallow embedding of the view-stack navigation engine and async data-loading
bridge of the `rust-tig` repository (a terminal dashboard over a git
repository), together with proofs about the embedded operations.

Each definition mirrors one function of the Rust source; the file names the
source file and function it embeds next to each definition.
-/

set_option maxRecDepth 4096

namespace RustTig

/-! ### Channel model

`tokio::sync::mpsc::unbounded_channel` sender, seen from the producer side.
`none` models a receiver that is never dropped (every send succeeds);
`some k` models a receiver that accepts `k` more sends and is then dropped
(once dropped, every later send fails).  `chSend` returns whether the send
succeeded together with the new channel state. -/

def ChannelState : Type := Option Nat

/-- One `tx.send(..)` attempt: succeeds iff the receiver is still alive. -/
def chSend : ChannelState → Bool × ChannelState
  | Option.none => (true, Option.none)
  | Option.some 0 => (false, Option.some 0)
  | Option.some (k+1) => (true, Option.some k)

/-! ### View stack (`src/views/manager.rs`)

A view is abstracted to its identity and the (fixed) results its activate
and deactivate hooks return when invoked: `none` models `Ok(())`,
`some msg` models `Err(msg)`.  The stack is the `Vec<Box<dyn View>>`
`view_stack`, with the *last* element of the list being the top, exactly as
in the Rust `Vec`. -/

deriving instance DecidableEq for Except

structure ViewM where
  vid : Nat
  activateResult : Option String
  deactivateResult : Option String
deriving Repr, DecidableEq

/-- A hook invocation recorded while an operation runs. -/
inductive HookEvent where
  | activate (vid : Nat)
  | deactivate (vid : Nat)
deriving Repr, DecidableEq

/-- Result of a `ViewManager` operation: the `Result<()>` value (`none` =
`Ok(())`), the stack afterwards, and the hook invocations performed, in
order. -/
structure OpResult where
  res : Option String
  stack : List ViewM
  events : List HookEvent
deriving Repr, DecidableEq

namespace ViewManager

/-- `ViewManager::push` (`src/views/manager.rs:19`): deactivate the current
top if any (propagating its error with `?` *before* the vector is touched),
append the new view, then activate it (propagating its error after the
append). -/
def push (stack : List ViewM) (v : ViewM) : OpResult :=
  match stack.getLast? with
  | Option.some cur =>
    match cur.deactivateResult with
    | Option.some e => ⟨Option.some e, stack, [HookEvent.deactivate cur.vid]⟩
    | Option.none =>
      let stack1 := stack ++ [v]
      match v.activateResult with
      | Option.some e =>
          ⟨Option.some e, stack1, [HookEvent.deactivate cur.vid, HookEvent.activate v.vid]⟩
      | Option.none =>
          ⟨Option.none, stack1, [HookEvent.deactivate cur.vid, HookEvent.activate v.vid]⟩
  | Option.none =>
    let stack1 := stack ++ [v]
    match v.activateResult with
    | Option.some e => ⟨Option.some e, stack1, [HookEvent.activate v.vid]⟩
    | Option.none => ⟨Option.none, stack1, [HookEvent.activate v.vid]⟩

/-- The error message `pop` returns on a stack of at most one element. -/
def popErrMsg : String := "Cannot pop the last view"

/-- `ViewManager::pop` (`src/views/manager.rs:31`): refuse when
`len() <= 1`; otherwise remove the top, deactivate it (propagating the
error with the stack already shrunk), then activate the new top. -/
def pop (stack : List ViewM) : OpResult :=
  if stack.length ≤ 1 then ⟨Option.some popErrMsg, stack, []⟩
  else
    match stack.getLast? with
    | Option.none => ⟨Option.none, stack, []⟩
    | Option.some old =>
      let stack1 := stack.dropLast
      match old.deactivateResult with
      | Option.some e => ⟨Option.some e, stack1, [HookEvent.deactivate old.vid]⟩
      | Option.none =>
        match stack1.getLast? with
        | Option.none => ⟨Option.none, stack1, [HookEvent.deactivate old.vid]⟩
        | Option.some cur =>
          match cur.activateResult with
          | Option.some e =>
              ⟨Option.some e, stack1, [HookEvent.deactivate old.vid, HookEvent.activate cur.vid]⟩
          | Option.none =>
              ⟨Option.none, stack1, [HookEvent.deactivate old.vid, HookEvent.activate cur.vid]⟩

/-- `ViewManager::switch` (`src/views/manager.rs:48`): pop the current top
if any and deactivate it (propagating its error with the top already
removed and the new view not yet pushed), then push the new view and
activate it. -/
def switch (stack : List ViewM) (v : ViewM) : OpResult :=
  match stack.getLast? with
  | Option.some old =>
    let stack1 := stack.dropLast
    match old.deactivateResult with
    | Option.some e => ⟨Option.some e, stack1, [HookEvent.deactivate old.vid]⟩
    | Option.none =>
      let stack2 := stack1 ++ [v]
      match v.activateResult with
      | Option.some e =>
          ⟨Option.some e, stack2, [HookEvent.deactivate old.vid, HookEvent.activate v.vid]⟩
      | Option.none =>
          ⟨Option.none, stack2, [HookEvent.deactivate old.vid, HookEvent.activate v.vid]⟩
  | Option.none =>
    let stack2 := stack ++ [v]
    match v.activateResult with
    | Option.some e => ⟨Option.some e, stack2, [HookEvent.activate v.vid]⟩
    | Option.none => ⟨Option.none, stack2, [HookEvent.activate v.vid]⟩

end ViewManager

/-- A push or pop request, as issued by the application shell. -/
inductive StackOp where
  | push (v : ViewM)
  | pop
deriving Repr, DecidableEq

/-- Apply one stack operation, keeping the resulting stack (the shell
ignores the returned `Result` for the purpose of the stack state). -/
def applyOp (stack : List ViewM) : StackOp → List ViewM
  | StackOp.push v => (ViewManager.push stack v).stack
  | StackOp.pop => (ViewManager.pop stack).stack

/-- Apply a sequence of push/pop operations in order. -/
def applyOps (ops : List StackOp) (stack : List ViewM) : List ViewM :=
  ops.foldl applyOp stack

/-! ### Commit data (`src/git/commit.rs`, `src/git/error.rs`)

`git2::Oid` is abstracted to a `Nat`, `DateTime<Local>` to an `Int`
timestamp; the remaining fields are kept as in the Rust struct. -/

structure Commit where
  id : Nat
  short_id : String
  author : String
  author_email : String
  date : Int
  summary : String
  message : String
  refs : List String
deriving Repr, DecidableEq

/-- `GitError` (`src/git/error.rs`). -/
inductive GitError where
  | repoNotFound
  | notARepo
  | git (msg : String)
  | io (msg : String)
  | invalidCommit (id : String)
  | refNotFound (name : String)
  | invalidUtf8
deriving Repr, DecidableEq

/-! ### Commit walker (`src/git/walker.rs`)

The revwalk's output is abstracted to a list of `Except GitError Nat`
(each iterator item is `oid?`), and `find_commit` composed with
`Commit::from_git2` to a function `find : Nat → Except GitError Commit`
(the commit it yields carries `refs = []`, as `from_git2` always returns
`refs: Vec::new()`).  The refs map built from `git_repo.references()` is an
association list `refsMap`.  Both `walk` and `load_all` process each oid
identically; that shared step is `processOid`. -/

/-- `refs_map.get(&oid)`: first entry of the association list with key
`oid`. -/
def refsLookup (refsMap : List (Nat × List String)) (oid : Nat) : Option (List String) :=
  (refsMap.find? (fun p => p.1 == oid)).map (fun p => p.2)

/-- One loop iteration shared by `walk` and `load_all`: `find_commit` +
`Commit::from_git2`, then attach the refs pointing at this commit, if
any. -/
def processOid (find : Nat → Except GitError Commit)
    (refsMap : List (Nat × List String)) (oid : Nat) : Except GitError Commit :=
  match find oid with
  | Except.error e => Except.error e
  | Except.ok c =>
    match refsLookup refsMap oid with
    | Option.some rs => Except.ok { c with refs := rs }
    | Option.none => Except.ok c

/-- The `for oid in revwalk` loop of `CommitWalker::walk`
(`src/git/walker.rs:55`), including the trailing
`if !commits.is_empty() { let _ = tx.send(commits); }`.
State: the channel, the `commits` buffer and the chunks delivered so far.
Returns the delivered chunks in order, the final channel state, and the
closure's `Result<(), GitError>`.  A failed send inside the loop `break`s;
the remaining buffer is then still *attempted* (and fails again, ignored),
exactly as in the source. -/
def walkLoop (chunkSize : Nat) (find : Nat → Except GitError Commit)
    (refsMap : List (Nat × List String)) (ch : ChannelState)
    (buf : List Commit) (sent : List (List Commit)) :
    List (Except GitError Nat) → List (List Commit) × ChannelState × Except GitError Unit
  | [] =>
    if buf.isEmpty then (sent, ch, Except.ok ())
    else
      let (ok, ch') := chSend ch
      ((if ok then sent ++ [buf] else sent), ch', Except.ok ())
  | Except.error e :: _ => (sent, ch, Except.error e)
  | Except.ok oid :: rest =>
    match processOid find refsMap oid with
    | Except.error e => (sent, ch, Except.error e)
    | Except.ok c =>
      let buf' := buf ++ [c]
      if chunkSize ≤ buf'.length then
        let (ok, ch') := chSend ch
        if ok then walkLoop chunkSize find refsMap ch' [] (sent ++ [buf']) rest
        else
          let (ok2, ch'') := chSend ch'
          ((if ok2 then sent ++ [buf'] else sent), ch'', Except.ok ())
      else walkLoop chunkSize find refsMap ch buf' sent rest

/-- `CommitWalker::walk` (`src/git/walker.rs:28`), the body of its
`spawn_blocking` closure after the refs map is built. -/
def CommitWalker.walk (chunkSize : Nat) (find : Nat → Except GitError Commit)
    (refsMap : List (Nat × List String)) (ch : ChannelState)
    (oids : List (Except GitError Nat)) :
    List (List Commit) × ChannelState × Except GitError Unit :=
  walkLoop chunkSize find refsMap ch [] [] oids

/-- The `for oid in revwalk` loop of `CommitWalker::load_all`
(`src/git/walker.rs:116`). -/
def loadAllLoop (find : Nat → Except GitError Commit)
    (refsMap : List (Nat × List String)) (acc : List Commit) :
    List (Except GitError Nat) → Except GitError (List Commit)
  | [] => Except.ok acc
  | Except.error e :: _ => Except.error e
  | Except.ok oid :: rest =>
    match processOid find refsMap oid with
    | Except.error e => Except.error e
    | Except.ok c => loadAllLoop find refsMap (acc ++ [c]) rest

/-- `CommitWalker::load_all` (`src/git/walker.rs:91`). -/
def CommitWalker.load_all (find : Nat → Except GitError Commit)
    (refsMap : List (Nat × List String))
    (oids : List (Except GitError Nat)) : Except GitError (List Commit) :=
  loadAllLoop find refsMap [] oids

/-- A background unit of work that computes a result and performs
`let _ = tx.send(result);`, ignoring the send outcome, then terminates —
the spawned tasks of `DiffView::start_loading` (`src/views/diff_view.rs:95`)
and `StatusView::start_loading` (`src/views/status_view.rs:107`). -/
def backgroundSendTask {α : Type} (_result : α) (ch : ChannelState) : ChannelState × Unit :=
  ((chSend ch).2, ())

/-! ### Main (commit history) view (`src/views/main_view.rs`)

The view state keeps the fields that the search/selection logic reads and
writes: `commits`, `filtered_commits` (indices into `commits`),
`table_state.selected()` as `selected`, the search mode and query.
Key events are restricted to the key codes the handler matches on. -/

/-- `SearchMode` (`src/views/main_view.rs:16`). -/
inductive SearchMode where
  | Inactive
  | Active
deriving Repr, DecidableEq, BEq

structure MainView where
  commits : List Commit
  filtered_commits : List Nat
  selected : Option Nat
  loading : Bool
  search_mode : SearchMode
  search_query : String
deriving Repr, DecidableEq

/-- The key codes `MainView::handle_key` distinguishes. -/
inductive Key where
  | esc
  | enter
  | backspace
  | char (c : Char)
  | down
  | up
  | pageUp
  | pageDown
  | other
deriving Repr, DecidableEq

/-- The actions `MainView::handle_key` can emit (`src/views/view.rs:9`,
restricted to the variants this view produces; the `repo` handle is
dropped from `OpenDiff`). -/
inductive MViewType where
  | Status
  | Help
deriving Repr, DecidableEq

inductive MAction where
  | none
  | quit
  | openDiff (commit_id : Nat) (summary : String)
  | pushView (t : MViewType)
deriving Repr, DecidableEq

/-- Does the pattern (first argument) start the haystack (second argument)? -/
def charsStartWith : List Char → List Char → Bool
  | [], _ => true
  | _ :: _, [] => false
  | p :: ps, h :: t => p == h && charsStartWith ps t

/-- `str::contains` of a pattern in a haystack, on character lists. -/
def charsContain : List Char → List Char → Bool
  | [], pat => pat.isEmpty
  | h :: t, pat => charsStartWith pat (h :: t) || charsContain t pat

/-- `haystack.contains(&pattern)` on strings. -/
def strContains (hay pat : String) : Bool :=
  charsContain hay.toList pat.toList

/-- `str::to_lowercase` (per-character, adequate for ASCII data). -/
def strToLower (s : String) : String := ⟨s.data.map Char.toLower⟩

/-- `String::pop`: remove the last character. -/
def strPop (s : String) : String := ⟨s.data.dropLast⟩

/-- `str::is_empty`. -/
def strIsEmpty (s : String) : Bool := s.data.isEmpty

namespace MainView

/-- Initial state built by `MainView::new` (`src/views/main_view.rs:36`):
the table selection starts at `Some(0)`. -/
def new : MainView :=
  { commits := [],
    filtered_commits := [],
    selected := Option.some 0,
    loading := false,
    search_mode := SearchMode.Inactive,
    search_query := "" }

/-- `MainView::is_searching` (`src/views/main_view.rs:92`). -/
def is_searching (v : MainView) : Bool :=
  v.search_mode == SearchMode.Active && !(strIsEmpty v.search_query)

/-- `MainView::displayed_commits` (`src/views/main_view.rs:80`). -/
def displayed_commits (v : MainView) : List Commit :=
  if v.is_searching then
    v.filtered_commits.filterMap (fun i => v.commits.get? i)
  else
    v.commits

/-- `MainView::selected_commit` (`src/views/main_view.rs:69`). -/
def selected_commit (v : MainView) : Option Commit :=
  v.selected.bind (fun i =>
    if v.is_searching then
      (v.filtered_commits.get? i).bind (fun idx => v.commits.get? idx)
    else
      v.commits.get? i)

/-- The predicate of `update_search_filter`'s `filter` closure
(`src/views/main_view.rs:108`): case-insensitive substring match on
summary, author and short id (`query` is already lowercased). -/
def matchesQuery (query : String) (c : Commit) : Bool :=
  strContains (strToLower c.summary) query || strContains (strToLower c.author) query ||
    strContains (strToLower c.short_id) query

/-- `MainView::update_search_filter` (`src/views/main_view.rs:97`). -/
def update_search_filter (v : MainView) : MainView :=
  if strIsEmpty v.search_query then { v with filtered_commits := [] }
  else
    let query := strToLower v.search_query
    let filtered := (v.commits.enum.filter (fun p => matchesQuery query p.2)).map (fun p => p.1)
    let v' := { v with filtered_commits := filtered }
    if !filtered.isEmpty then { v' with selected := Option.some 0 } else v'

/-- `MainView::enter_search_mode` (`src/views/main_view.rs:123`). -/
def enter_search_mode (v : MainView) : MainView :=
  { v with search_mode := SearchMode.Active, search_query := "", filtered_commits := [] }

/-- `MainView::exit_search_mode` (`src/views/main_view.rs:130`). -/
def exit_search_mode (v : MainView) : MainView :=
  { v with
    search_mode := SearchMode.Inactive,
    search_query := "",
    filtered_commits := [],
    selected := Option.some 0 }

/-- `MainView::search_add_char` (`src/views/main_view.rs:138`). -/
def search_add_char (v : MainView) (c : Char) : MainView :=
  update_search_filter { v with search_query := v.search_query.push c }

/-- `MainView::search_backspace` (`src/views/main_view.rs:144`):
`String::pop` removes the last character. -/
def search_backspace (v : MainView) : MainView :=
  update_search_filter { v with search_query := strPop v.search_query }

/-- `MainView::select_previous` (`src/views/main_view.rs:150`). -/
def select_previous (v : MainView) : MainView :=
  let i := match v.selected with
    | Option.some i => if i == 0 then 0 else i - 1
    | Option.none => 0
  { v with selected := Option.some i }

/-- `MainView::select_next` (`src/views/main_view.rs:165`). -/
def select_next (v : MainView) : MainView :=
  let len := if v.is_searching then v.filtered_commits.length else v.commits.length
  let i := match v.selected with
    | Option.some i => if len - 1 ≤ i then i else i + 1
    | Option.none => 0
  { v with selected := Option.some i }

/-- `MainView::select_first` (`src/views/main_view.rs:186`). -/
def select_first (v : MainView) : MainView :=
  { v with selected := Option.some 0 }

/-- `MainView::select_last` (`src/views/main_view.rs:191`). -/
def select_last (v : MainView) : MainView :=
  let len := if v.is_searching then v.filtered_commits.length else v.commits.length
  if 0 < len then { v with selected := Option.some (len - 1) } else v

/-- `MainView::page_up` (`src/views/main_view.rs:204`). -/
def page_up (v : MainView) (page_size : Nat) : MainView :=
  let i := match v.selected with
    | Option.some i => i - page_size
    | Option.none => 0
  { v with selected := Option.some i }

/-- `MainView::page_down` (`src/views/main_view.rs:213`). -/
def page_down (v : MainView) (page_size : Nat) : MainView :=
  let len := if v.is_searching then v.filtered_commits.length else v.commits.length
  let i := match v.selected with
    | Option.some i => min (i + page_size) (len - 1)
    | Option.none => 0
  { v with selected := Option.some i }

/-- `MainView::handle_key` (`src/views/main_view.rs:258`). -/
def handle_key (v : MainView) (key : Key) : MainView × MAction :=
  if v.search_mode == SearchMode.Active then
    match key with
    | Key.esc => (v.exit_search_mode, MAction.none)
    | Key.enter => ({ v with search_mode := SearchMode.Inactive }, MAction.none)
    | Key.backspace => (v.search_backspace, MAction.none)
    | Key.char c => (v.search_add_char c, MAction.none)
    | _ => (v, MAction.none)
  else
    match key with
    | Key.char 'q' => (v, MAction.quit)
    | Key.char '/' => (v.enter_search_mode, MAction.none)
    | Key.esc => if v.is_searching then (v.exit_search_mode, MAction.none) else (v, MAction.none)
    | Key.char 'j' => (v.select_next, MAction.none)
    | Key.down => (v.select_next, MAction.none)
    | Key.char 'k' => (v.select_previous, MAction.none)
    | Key.up => (v.select_previous, MAction.none)
    | Key.char 'g' => (v.select_first, MAction.none)
    | Key.char 'G' => (v.select_last, MAction.none)
    | Key.pageUp => (v.page_up 20, MAction.none)
    | Key.pageDown => (v.page_down 20, MAction.none)
    | Key.enter =>
      match v.selected_commit with
      | Option.some c => (v, MAction.openDiff c.id c.summary)
      | Option.none => (v, MAction.none)
    | Key.char 's' => (v, MAction.pushView MViewType.Status)
    | Key.char '?' => (v, MAction.pushView MViewType.Help)
    | _ => (v, MAction.none)

/-- `MainView::update` (`src/views/main_view.rs:342`): drain every chunk
currently available on the receiver and append, preserving arrival
order.  `chunks` is the pending content of the channel. -/
def update (v : MainView) (chunks : List (List Commit)) : MainView :=
  { v with commits := v.commits ++ chunks.flatten }

end MainView

/-! ### Diff view scrolling (`src/views/diff_view.rs`)

Only the state the scroll operations (`src/views/diff_view.rs:293-322`)
read and write is kept: the flattened display lines (abstracted to their
text), the scroll offset, and the loading flag (which the scroll
operations never touch). -/

structure DiffView where
  lines : List String
  scroll_offset : Nat
  loading : Bool
deriving Repr, DecidableEq

namespace DiffView

/-- `DiffView::scroll_down` (`src/views/diff_view.rs:294`):
`max_scroll = lines.len().saturating_sub(1)`;
`scroll_offset = (scroll_offset + amount).min(max_scroll)`. -/
def scroll_down (v : DiffView) (amount : Nat) : DiffView :=
  let max_scroll := v.lines.length - 1
  { v with scroll_offset := min (v.scroll_offset + amount) max_scroll }

/-- `DiffView::scroll_up` (`src/views/diff_view.rs:300`). -/
def scroll_up (v : DiffView) (amount : Nat) : DiffView :=
  { v with scroll_offset := v.scroll_offset - amount }

/-- `DiffView::scroll_to_top` (`src/views/diff_view.rs:305`). -/
def scroll_to_top (v : DiffView) : DiffView :=
  { v with scroll_offset := 0 }

/-- `DiffView::scroll_to_bottom` (`src/views/diff_view.rs:310`). -/
def scroll_to_bottom (v : DiffView) : DiffView :=
  { v with scroll_offset := v.lines.length - 1 }

/-- `DiffView::page_down` (`src/views/diff_view.rs:315`). -/
def page_down (v : DiffView) (page_size : Nat) : DiffView :=
  v.scroll_down page_size

/-- `DiffView::page_up` (`src/views/diff_view.rs:320`). -/
def page_up (v : DiffView) (page_size : Nat) : DiffView :=
  v.scroll_up page_size

end DiffView

/-- The scroll requests `DiffView::handle_key`
(`src/views/diff_view.rs:326`) can issue: scroll by one, page by the fixed
page size 20, jump to top/bottom. -/
inductive ScrollOp where
  | down1
  | up1
  | pageDown
  | pageUp
  | top
  | bottom
deriving Repr, DecidableEq

/-- Dispatch of a scroll request exactly as `DiffView::handle_key` does. -/
def applyScroll (v : DiffView) : ScrollOp → DiffView
  | ScrollOp.down1 => v.scroll_down 1
  | ScrollOp.up1 => v.scroll_up 1
  | ScrollOp.pageDown => v.page_down 20
  | ScrollOp.pageUp => v.page_up 20
  | ScrollOp.top => v.scroll_to_top
  | ScrollOp.bottom => v.scroll_to_bottom

/-- A fresh `DiffView` (`DiffView::new`, `src/views/diff_view.rs:39`):
no lines yet, `scroll_offset: 0`, `loading: false`. -/
def DiffView.new : DiffView :=
  { lines := [], scroll_offset := 0, loading := false }

/-! ### Status view (`src/views/status_view.rs`) -/

/-- `EntryStatus` (`src/git/status.rs:6`). -/
inductive EntryStatus where
  | IndexNew
  | IndexModified
  | IndexDeleted
  | IndexRenamed
  | IndexTypeChange
  | WorktreeNew
  | WorktreeModified
  | WorktreeDeleted
  | WorktreeRenamed
  | WorktreeTypeChange
  | Ignored
  | Conflicted
deriving Repr, DecidableEq

/-- `StatusEntry` (`src/git/status.rs:97`). -/
structure StatusEntry where
  path : String
  status : EntryStatus
  index_to_workdir : Bool
deriving Repr, DecidableEq

/-- `Status` (`src/git/status.rs:115`). -/
structure Status where
  staged : List StatusEntry
  unstaged : List StatusEntry
  untracked : List StatusEntry
  conflicted : List StatusEntry
deriving Repr, DecidableEq

/-- `Section` (`src/views/status_view.rs:16`). -/
inductive StatusSection where
  | Staged
  | Unstaged
  | Untracked
  | Conflicted
deriving Repr, DecidableEq

/-- `DisplayItem` (`src/views/status_view.rs:45`). -/
structure DisplayItem where
  sect : StatusSection
  entry : Option StatusEntry
  is_header : Bool
deriving Repr, DecidableEq

namespace DisplayItem

/-- `DisplayItem::header` (`src/views/status_view.rs:52`). -/
def header (sect : StatusSection) : DisplayItem :=
  { sect := sect, entry := Option.none, is_header := true }

/-- `DisplayItem::entry` (`src/views/status_view.rs:60`); named `mkEntry`
here because `entry` is the field name. -/
def mkEntry (sect : StatusSection) (e : StatusEntry) : DisplayItem :=
  { sect := sect, entry := Option.some e, is_header := false }

end DisplayItem

/-- The `StatusView` state (`src/views/status_view.rs:70`).  The two
channels are modelled by their pending message queues: `receiver` holds
the result messages the current status query has delivered but the view
has not consumed, `refresh_trigger` the pending completion pulses of a
mutation task. -/
structure StatusView where
  status : Option Status
  items : List DisplayItem
  selected : Option Nat
  loading : Bool
  error : Option String
  receiver : Option (List (Except String Status))
  refresh_trigger : Option (List Unit)
deriving Repr, DecidableEq

namespace StatusView

/-- `StatusView::new` (`src/views/status_view.rs:83`). -/
def new : StatusView :=
  { status := Option.none,
    items := [],
    selected := Option.some 0,
    loading := false,
    error := Option.none,
    receiver := Option.none,
    refresh_trigger := Option.none }

/-- `StatusView::start_loading` (`src/views/status_view.rs:100`): install
a fresh receiving end and set the loading flag; the spawned task will
eventually deliver the messages `newChan` into that channel. -/
def start_loading (v : StatusView) (newChan : List (Except String Status)) : StatusView :=
  { v with receiver := Option.some newChan, loading := true }

/-- The per-section body of `StatusView::build_items`
(`src/views/status_view.rs:116`): a header followed by the entries, when
the section is non-empty. -/
def sectionItems (sect : StatusSection) (entries : List StatusEntry) : List DisplayItem :=
  if entries.isEmpty then []
  else DisplayItem.header sect :: entries.map (DisplayItem.mkEntry sect)

/-- The item list `StatusView::build_items` constructs from a status
snapshot. -/
def itemsOf (st : Status) : List DisplayItem :=
  sectionItems StatusSection.Staged st.staged ++
    sectionItems StatusSection.Unstaged st.unstaged ++
    sectionItems StatusSection.Untracked st.untracked ++
    sectionItems StatusSection.Conflicted st.conflicted

/-- `StatusView::build_items` (`src/views/status_view.rs:116`): rebuild
`items` wholesale from the current snapshot, then make sure a selection
exists. -/
def build_items (v : StatusView) : StatusView :=
  let items := match v.status with
    | Option.some st => itemsOf st
    | Option.none => []
  let v' := { v with items := items }
  if !items.isEmpty && v'.selected.isNone then { v' with selected := Option.some 0 } else v'

/-- `StatusView::selected_item` (`src/views/status_view.rs:164`). -/
def selected_item (v : StatusView) : Option DisplayItem :=
  v.selected.bind (fun i => v.items.get? i)

/-- The `KeyCode::Char('u')` branch of `StatusView::handle_key`
(`src/views/status_view.rs:328`): when a non-header entry is selected,
install a fresh refresh-trigger channel and clear the error field; the
spawned stage/unstage task will eventually deliver `pulse` into that
channel (one `()` on completion, whether or not the mutation
succeeded). -/
def stage_unstage_key (v : StatusView) (pulse : List Unit) : StatusView :=
  match v.selected_item with
  | Option.some item =>
    if item.is_header then v
    else
      match item.entry with
      | Option.some _ => { v with refresh_trigger := Option.some pulse, error := Option.none }
      | Option.none => v
  | Option.none => v

/-- The spawned stage/unstage task (`src/views/status_view.rs:351`): the
mutation may fail (the error is only printed), then `let _ = tx.send(());`
— the pulse is sent regardless of the mutation outcome, and a failed send
is ignored. -/
def mutationTask (_mutationResult : Except String Unit) (ch : ChannelState) :
    ChannelState × Unit :=
  ((chSend ch).2, ())

/-- `StatusView::update` (`src/views/status_view.rs:380`): first a
non-blocking receive on the refresh trigger — a pulse clears the trigger
and starts a brand-new status query (whose task will eventually deliver
`newChan`; at the moment `update` runs the fresh channel is empty, so
`newChan = []` models the real frame) — then a non-blocking receive on
the result channel, storing the snapshot and rebuilding the items on
success, or the error string on failure. -/
def update (v : StatusView) (newChan : List (Except String Status)) : StatusView :=
  let v1 := match v.refresh_trigger with
    | Option.some (() :: _) => start_loading { v with refresh_trigger := Option.none } newChan
    | _ => v
  match v1.receiver with
  | Option.some (msg :: rest) =>
    let v2 := { v1 with receiver := Option.some rest, loading := false }
    match msg with
    | Except.ok st => build_items { v2 with status := Option.some st }
    | Except.error e => { v2 with error := Option.some ("Failed to load status: " ++ e) }
  | _ => v1

end StatusView

/-! ### Concrete sample data used by witnesses and counterexamples -/

/-- A view whose hooks both succeed. -/
def vOkDemo : ViewM := { vid := 0, activateResult := Option.none, deactivateResult := Option.none }

/-- A view whose deactivate hook fails. -/
def vDeactErr : ViewM :=
  { vid := 1, activateResult := Option.none, deactivateResult := Option.some "boom" }

/-- A view whose activate hook fails. -/
def vActErr : ViewM :=
  { vid := 2, activateResult := Option.some "bang", deactivateResult := Option.none }

/-- A plain commit record. -/
def mkC (n : Nat) (sid auth summ : String) : Commit :=
  { id := n, short_id := sid, author := auth, author_email := "t@example.com", date := 0,
    summary := summ, message := summ, refs := [] }

/-- The three commits of the spec's search scenario. -/
def demoCommits : List Commit :=
  [mkC 0 "abc123" "Test" "Fix bug", mkC 1 "def456" "Test" "Add feature",
    mkC 2 "ghi789" "Test" "Fix typo"]

/-- Main view over `demoCommits` in search mode with the query `fix`
typed: `/`, `f`, `i`, `x`. -/
def demoSearchFix : MainView :=
  ((({ MainView.new with commits := demoCommits }.enter_search_mode).search_add_char
      'f').search_add_char 'i').search_add_char 'x'

/-- Main view over `demoCommits` with selection moved to index 2 (`j`,
`j`), then search mode entered (`/`) and the match-less query `z`
typed. -/
def demoSel2Empty : MainView :=
  let v0 : MainView := { MainView.new with commits := demoCommits }
  let w0 := ((v0.handle_key (Key.char 'j')).1.handle_key (Key.char 'j')).1
  ((w0.handle_key (Key.char '/')).1.handle_key (Key.char 'z')).1

/-- A repository backend in which every oid resolves to a commit. -/
def findDemo (n : Nat) : Except GitError Commit := Except.ok (mkC n "abcdef0" "A" "m")

/-- Five revwalk items, none failing. -/
def oids5 : List (Except GitError Nat) :=
  [Except.ok 0, Except.ok 1, Except.ok 2, Except.ok 3, Except.ok 4]

/-- The full history `load_all` produces for `findDemo`/`oids5`. -/
def demoLoaded : List Commit :=
  [mkC 0 "abcdef0" "A" "m", mkC 1 "abcdef0" "A" "m", mkC 2 "abcdef0" "A" "m",
    mkC 3 "abcdef0" "A" "m", mkC 4 "abcdef0" "A" "m"]

/-- A status entry and a snapshot containing it. -/
def demoEntry : StatusEntry :=
  { path := "a.txt", status := EntryStatus.WorktreeModified, index_to_workdir := true }

def demoStatus : Status :=
  { staged := [], unstaged := [demoEntry], untracked := [], conflicted := [] }

/-- A second, different snapshot (the file got staged). -/
def demoStatus2 : Status :=
  { staged := [{ demoEntry with status := EntryStatus.IndexModified }],
    unstaged := [], untracked := [], conflicted := [] }

/-- Status view holding `demoStatus`, with a mutation-completion pulse
pending on the refresh trigger. -/
def svDemo : StatusView :=
  { StatusView.new with
    status := Option.some demoStatus,
    items := StatusView.itemsOf demoStatus,
    refresh_trigger := Option.some [()] }

/-- Status view holding `demoStatus` with its second item (the file
entry, not the header) selected. -/
def svDemoSel1 : StatusView :=
  { StatusView.new with
    status := Option.some demoStatus,
    items := StatusView.itemsOf demoStatus,
    selected := Option.some 1 }

/-- Status view whose (re-started) query has delivered `demoStatus2`. -/
def svDemo2 : StatusView :=
  { StatusView.new with
    status := Option.some demoStatus,
    items := StatusView.itemsOf demoStatus,
    loading := true,
    receiver := Option.some [Except.ok demoStatus2] }

/-! ## Theorems -/

/-- C3: in the Main view's search mode, with commits `["Fix bug",
"Add feature", "Fix typo"]` and the non-empty query `fix` (filtered
display `[Fix bug, Fix typo]`), pressing Enter sets the mode to
`Inactive`, which makes `is_searching()` false, so the *full* unfiltered
list is displayed again even though the query and the filtered index list
are still stored: the committed filter is no longer applied to the
display, contradicting the code's own comment "Keep the search results
but exit search input mode" and the spec's *applied* phase. -/
theorem main_enter_drops_filter_from_display :
    demoSearchFix.is_searching = true ∧
    demoSearchFix.displayed_commits = [mkC 0 "abc123" "Test" "Fix bug",
      mkC 2 "ghi789" "Test" "Fix typo"] ∧
    (demoSearchFix.handle_key Key.enter).1.search_query = "fix" ∧
    (demoSearchFix.handle_key Key.enter).1.filtered_commits = [0, 2] ∧
    (demoSearchFix.handle_key Key.enter).1.is_searching = false ∧
    (demoSearchFix.handle_key Key.enter).1.displayed_commits = demoCommits ∧
    demoCommits ≠ [mkC 0 "abc123" "Test" "Fix bug", mkC 2 "ghi789" "Test" "Fix typo"] := by
  decide

/-- C4 counterexample: pushing onto a stack whose top's deactivate hook
fails propagates the error but does *not* append the new view — the stack
is left exactly as it was, refuting "the stack is left mutated (the new
view appended) even when a hook fails" for the deactivate case. -/
theorem push_deactivate_error_does_not_append :
    (ViewManager.push [vDeactErr] vOkDemo).res = Option.some "boom" ∧
    (ViewManager.push [vDeactErr] vOkDemo).stack = [vDeactErr] ∧
    (ViewManager.push [vDeactErr] vOkDemo).stack ≠ [vDeactErr, vOkDemo] := by
  decide

/-- C5 counterexample: `switch` on a depth-1 stack whose top's deactivate
hook fails pops the old top, the `?` then propagates the error before the
new view is pushed, and the stack is left *empty* — depth changed from 1
to 0 — refuting "leaves the stack depth unchanged, and never leaves the
stack empty — including when a deactivate … hook returns an error". -/
theorem switch_deactivate_error_empties_stack :
    (ViewManager.switch [vDeactErr] vOkDemo).res = Option.some "boom" ∧
    (ViewManager.switch [vDeactErr] vOkDemo).stack = [] ∧
    (ViewManager.switch [vDeactErr] vOkDemo).stack.length ≠ 1 := by
  decide

/-- C7 counterexample: when `update()` observes the mutation-completion
pulse it clears the trigger and starts a brand-new status query (fresh
receiver, loading flag set), but the current status snapshot and the
display items are *retained*, not discarded — they stay until the new
query's result arrives. -/
theorem status_pulse_keeps_snapshot :
    (svDemo.update []).refresh_trigger = Option.none ∧
    (svDemo.update []).receiver = Option.some [] ∧
    (svDemo.update []).loading = true ∧
    (svDemo.update []).status = Option.some demoStatus ∧
    (svDemo.update []).status ≠ Option.none ∧
    (svDemo.update []).items = svDemo.items := by
  decide

/-- `push` either leaves the stack unchanged (deactivate hook failed) or
appends the new view. -/
theorem push_stack_cases (stack : List ViewM) (v : ViewM) :
    (ViewManager.push stack v).stack = stack ∨
      (ViewManager.push stack v).stack = stack ++ [v] := by
  unfold ViewManager.push
  split
  · split
    · simp
    · split <;> simp
  · split <;> simp

/-- `pop` either leaves the stack unchanged (guard hit) or removes the
last element of a stack of at least two. -/
theorem pop_stack_cases (stack : List ViewM) :
    (ViewManager.pop stack).stack = stack ∨
      ((ViewManager.pop stack).stack = stack.dropLast ∧ 2 ≤ stack.length) := by
  unfold ViewManager.pop
  by_cases hg : stack.length ≤ 1
  · simp [hg]
  · have h2 : 2 ≤ stack.length := by omega
    simp only [hg, if_false]
    split
    · simp
    · split
      · simp [h2]
      · split
        · simp [h2]
        · split <;> simp [h2]

/-- One shell-level stack operation keeps the depth at least 1. -/
theorem applyOp_length (stack : List ViewM) (op : StackOp) (h : 1 ≤ stack.length) :
    1 ≤ (applyOp stack op).length := by
  cases op with
  | push v =>
    rcases push_stack_cases stack v with hc | hc <;> simp [applyOp, hc]
    omega
  | pop =>
    rcases pop_stack_cases stack with hc | ⟨hc, h2⟩ <;> simp [applyOp, hc] <;> omega

/-- Any sequence of shell-level stack operations keeps the depth at
least 1. -/
theorem applyOps_length (ops : List StackOp) :
    ∀ stack : List ViewM, 1 ≤ stack.length → 1 ≤ (applyOps ops stack).length := by
  induction ops with
  | nil => intro s h; simpa [applyOps] using h
  | cons op rest ih =>
    intro s h
    have : applyOps (op :: rest) s = applyOps rest (applyOp s op) := by
      simp [applyOps, List.foldl]
    rw [this]
    exact ih _ (applyOp_length s op h)

/-- C1: starting from a depth-1 stack, no sequence of push/pop operations
ever brings the depth below 1; and `pop` on a stack of at most one element
returns the `EmptyStack`-style error and leaves the stack — depth and
contents — unchanged, invoking no activate or deactivate hook. -/
theorem viewstack_depth_never_below_one :
    (∀ (ops : List StackOp) (v0 : ViewM), 1 ≤ (applyOps ops [v0]).length) ∧
    (∀ stack : List ViewM, stack.length ≤ 1 →
      ViewManager.pop stack = ⟨Option.some ViewManager.popErrMsg, stack, []⟩) := by
  constructor
  · intro ops v0
    exact applyOps_length ops [v0] (by simp)
  · intro stack h
    unfold ViewManager.pop
    simp [h]

/-- Witness for C1 at a concrete input. -/
theorem viewstack_depth_never_below_one_witness :
    1 ≤ (applyOps [StackOp.pop, StackOp.pop] [vOkDemo]).length ∧
    ViewManager.pop [vOkDemo] = ⟨Option.some ViewManager.popErrMsg, [vOkDemo], []⟩ :=
  ⟨viewstack_depth_never_below_one.1 [StackOp.pop, StackOp.pop] vOkDemo,
    viewstack_depth_never_below_one.2 [vOkDemo] (by decide)⟩

/-- C4 (amended): `push` propagates hook errors without rollback of what
already happened, but the point of mutation matters: if the current top's
deactivate hook fails, the error propagates *before* the append and the
stack is left unchanged (the new view is not appended); if the deactivate
hook succeeds (or the stack is empty), the new view is appended and
`push`'s result is exactly the activate hook's result — so an activate
failure leaves the stack mutated with the new view appended, and `push`
succeeds whenever the involved hooks succeed. -/
theorem push_hook_error_behavior :
    (∀ (stack : List ViewM) (cur v : ViewM) (e : String),
        stack.getLast? = Option.some cur → cur.deactivateResult = Option.some e →
        ViewManager.push stack v =
          ⟨Option.some e, stack, [HookEvent.deactivate cur.vid]⟩) ∧
    (∀ (stack : List ViewM) (cur v : ViewM),
        stack.getLast? = Option.some cur → cur.deactivateResult = Option.none →
        (ViewManager.push stack v).stack = stack ++ [v] ∧
        (ViewManager.push stack v).res = v.activateResult ∧
        (ViewManager.push stack v).events =
          [HookEvent.deactivate cur.vid, HookEvent.activate v.vid]) ∧
    (∀ v : ViewM, (ViewManager.push [] v).stack = [v] ∧
        (ViewManager.push [] v).res = v.activateResult) := by
  refine ⟨?_, ?_, ?_⟩
  · intro stack cur v e h1 h2
    unfold ViewManager.push
    simp only [h1, h2]
  · intro stack cur v h1 h2
    unfold ViewManager.push
    simp only [h1, h2]
    split <;> simp_all
  · intro v
    simp only [ViewManager.push, List.getLast?_nil]
    split <;> simp_all

/-- Witness for C4's amended theorem at concrete inputs. -/
theorem push_hook_error_behavior_witness :
    ViewManager.push [vDeactErr] vOkDemo =
      ⟨Option.some "boom", [vDeactErr], [HookEvent.deactivate 1]⟩ ∧
    (ViewManager.push [vOkDemo] vActErr).stack = [vOkDemo, vActErr] ∧
    (ViewManager.push [vOkDemo] vActErr).res = Option.some "bang" :=
  ⟨push_hook_error_behavior.1 [vDeactErr] vDeactErr vOkDemo "boom" (by decide) (by decide),
    (push_hook_error_behavior.2.1 [vOkDemo] vOkDemo vActErr (by decide) (by decide)).1,
    ((push_hook_error_behavior.2.1 [vOkDemo] vOkDemo vActErr (by decide) (by decide)).2.1).trans
      (by decide)⟩

/-- C5 (amended): when the current top's deactivate hook succeeds,
`switch` replaces the top (old top discarded, new view appended and
activated), keeps the depth unchanged and never leaves the stack empty,
and its result is the activate hook's result; but when the old top's
deactivate hook *fails*, the error propagates after the pop and before
the push, leaving the stack one element shorter — empty if the depth
was 1. -/
theorem switch_behavior :
    (∀ (stack : List ViewM) (cur v : ViewM),
        stack.getLast? = Option.some cur → cur.deactivateResult = Option.none →
        (ViewManager.switch stack v).stack = stack.dropLast ++ [v] ∧
        (ViewManager.switch stack v).stack.length = stack.length ∧
        (ViewManager.switch stack v).res = v.activateResult ∧
        (ViewManager.switch stack v).stack ≠ []) ∧
    (∀ (stack : List ViewM) (cur v : ViewM) (e : String),
        stack.getLast? = Option.some cur → cur.deactivateResult = Option.some e →
        ViewManager.switch stack v =
          ⟨Option.some e, stack.dropLast, [HookEvent.deactivate cur.vid]⟩) := by
  constructor
  · intro stack cur v h1 h2
    have hne : stack ≠ [] := by
      rintro rfl; simp at h1
    have hlen : 1 ≤ stack.length := by
      cases stack with
      | nil => exact absurd rfl hne
      | cons a t => simp
    unfold ViewManager.switch
    simp only [h1, h2]
    split <;> simp_all [List.length_dropLast]
  · intro stack cur v e h1 h2
    unfold ViewManager.switch
    simp only [h1, h2]

/-- Witness for C5's amended theorem at concrete inputs. -/
theorem switch_behavior_witness :
    (ViewManager.switch [vOkDemo, vOkDemo] vActErr).stack = [vOkDemo, vActErr] ∧
    (ViewManager.switch [vOkDemo, vOkDemo] vActErr).stack.length = 2 ∧
    ViewManager.switch [vDeactErr, vDeactErr] vOkDemo =
      ⟨Option.some "boom", [vDeactErr], [HookEvent.deactivate 1]⟩ :=
  ⟨by
      have := (switch_behavior.1 [vOkDemo, vOkDemo] vOkDemo vActErr (by decide) (by decide)).1
      simpa using this,
    by
      have := (switch_behavior.1 [vOkDemo, vOkDemo] vOkDemo vActErr (by decide) (by decide)).2.1
      simpa using this,
    switch_behavior.2 [vDeactErr, vDeactErr] vDeactErr vOkDemo "boom" (by decide) (by decide)⟩

/-- With a never-dropped receiver, the walker loop's delivered chunks
concatenate to exactly what the `load_all` loop accumulates, and the loop
returns `Ok(())`. -/
theorem walkLoop_alive (chunkSize : Nat) (find : Nat → Except GitError Commit)
    (refsMap : List (Nat × List String)) :
    ∀ (oids : List (Except GitError Nat)) (buf : List Commit)
      (sent : List (List Commit)) (l : List Commit),
      loadAllLoop find refsMap (sent.flatten ++ buf) oids = Except.ok l →
      (walkLoop chunkSize find refsMap Option.none buf sent oids).1.flatten = l ∧
      (walkLoop chunkSize find refsMap Option.none buf sent oids).2.2 = Except.ok () := by
  intro oids
  induction oids with
  | nil =>
    intro buf sent l h
    simp only [loadAllLoop, Except.ok.injEq] at h
    by_cases hb : buf.isEmpty
    · have : buf = [] := by simpa [List.isEmpty_iff] using hb
      subst this
      simp only [walkLoop, List.isEmpty_nil, if_true]
      exact ⟨by simpa using h, by trivial⟩
    · simp only [walkLoop, hb, if_false, chSend]
      constructor
      · simp [← h]
      · rfl
  | cons head rest ih =>
    intro buf sent l h
    cases head with
    | error e => simp [loadAllLoop] at h
    | ok oid =>
      simp only [loadAllLoop] at h
      cases hp : processOid find refsMap oid with
      | error e => rw [hp] at h; exact absurd h (by simp)
      | ok c =>
        rw [hp] at h
        simp only [walkLoop, hp]
        by_cases hfull : chunkSize ≤ (buf ++ [c]).length
        · simp only [hfull, if_true, chSend]
          exact ih [] (sent ++ [buf ++ [c]]) l (by
            have : (sent ++ [buf ++ [c]]).flatten ++ [] = sent.flatten ++ buf ++ [c] := by
              simp
            rw [this]
            simpa [List.append_assoc] using h)
        · simp only [hfull, if_false]
          exact ih (buf ++ [c]) sent l (by
            simpa [List.append_assoc] using h)

/-- C2: for every repository state (revwalk output, commit resolver, refs
map) and every chunk size ≥ 1, the chunks `CommitWalker::walk` delivers
over a live channel, concatenated in arrival order, equal the full
unchunked history `CommitWalker::load_all` produces, and the walker
returns `Ok(())`; moreover, over 5 commits with chunk size 2 the emitted
chunks have sizes `[2, 2, 1]` in order, totalling 5 commits. -/
theorem walk_chunks_concat_eq_load_all :
    (∀ (chunkSize : Nat) (find : Nat → Except GitError Commit)
        (refsMap : List (Nat × List String)) (oids : List (Except GitError Nat))
        (l : List Commit),
        1 ≤ chunkSize →
        CommitWalker.load_all find refsMap oids = Except.ok l →
        (CommitWalker.walk chunkSize find refsMap Option.none oids).1.flatten = l ∧
        (CommitWalker.walk chunkSize find refsMap Option.none oids).2.2 = Except.ok ()) ∧
    ((CommitWalker.walk 2 findDemo [] Option.none oids5).1.map List.length = [2, 2, 1] ∧
      (CommitWalker.walk 2 findDemo [] Option.none oids5).1.flatten.length = 5) := by
  refine ⟨?_, by decide, by decide⟩
  intro chunkSize find refsMap oids l _ h
  exact walkLoop_alive chunkSize find refsMap oids [] [] l (by
    simpa [CommitWalker.load_all] using h)

/-- Witness for C2 at a concrete repository state: 5 commits, chunk
size 2. -/
theorem walk_chunks_concat_eq_load_all_witness :
    (CommitWalker.walk 2 findDemo [] Option.none oids5).1.flatten = demoLoaded ∧
    (CommitWalker.walk 2 findDemo [] Option.none oids5).2.2 = Except.ok () :=
  walk_chunks_concat_eq_load_all.1 2 findDemo [] oids5 demoLoaded (by decide) (by decide)

/-- The chunks a `walkLoop` run delivers are the accumulator followed by
what the same run starting from an empty accumulator delivers. -/
theorem walkLoop_sent_accum (chunkSize : Nat) (find : Nat → Except GitError Commit)
    (refsMap : List (Nat × List String)) :
    ∀ (oids : List (Except GitError Nat)) (ch : ChannelState)
      (buf : List Commit) (sent : List (List Commit)),
      (walkLoop chunkSize find refsMap ch buf sent oids).1 =
        sent ++ (walkLoop chunkSize find refsMap ch buf [] oids).1 := by
  intro oids
  induction oids with
  | nil =>
    intro ch buf sent
    by_cases hb : buf.isEmpty
    · simp [walkLoop, hb]
    · rcases hs : chSend ch with ⟨ok, ch'⟩
      cases ok <;> simp [walkLoop, hb, hs]
  | cons head rest ih =>
    intro ch buf sent
    cases head with
    | error e => simp [walkLoop]
    | ok oid =>
      cases hp : processOid find refsMap oid with
      | error e => simp [walkLoop, hp]
      | ok c =>
        by_cases hfull : chunkSize ≤ (buf ++ [c]).length
        · rcases hs : chSend ch with ⟨ok, ch'⟩
          cases ok with
          | true =>
            simp only [walkLoop, hp, hfull, if_true, hs]
            rw [ih ch' [] (sent ++ [buf ++ [c]]), ih ch' [] ([] ++ [buf ++ [c]])]
            simp
          | false =>
            have hf1 : chunkSize ≤ buf.length + 1 := by simpa using hfull
            rcases hs2 : chSend ch' with ⟨ok2, ch''⟩
            cases ok2 <;> simp [walkLoop, hp, hfull, hf1, hs, hs2]
        · simp only [walkLoop, hp, hfull, if_false]
          exact ih ch (buf ++ [c]) sent

/-- With a receiver dropped after `k` accepted sends, the walker delivers
exactly the first `k` chunks of the full (live-channel) stream: after the
first failed send nothing further is enqueued. -/
theorem walkLoop_dropped_take (chunkSize : Nat) (find : Nat → Except GitError Commit)
    (refsMap : List (Nat × List String)) :
    ∀ (oids : List (Except GitError Nat)) (buf : List Commit) (k : Nat),
      (walkLoop chunkSize find refsMap (Option.some k) buf [] oids).1 =
        (walkLoop chunkSize find refsMap Option.none buf [] oids).1.take k := by
  intro oids
  induction oids with
  | nil =>
    intro buf k
    by_cases hb : buf.isEmpty
    · simp [walkLoop, hb]
    · cases k <;> simp [walkLoop, hb, chSend]
  | cons head rest ih =>
    intro buf k
    cases head with
    | error e => simp [walkLoop]
    | ok oid =>
      cases hp : processOid find refsMap oid with
      | error e => simp [walkLoop, hp]
      | ok c =>
        by_cases hfull : chunkSize ≤ (buf ++ [c]).length
        · cases k with
          | zero =>
            have hf1 : chunkSize ≤ buf.length + 1 := by simpa using hfull
            simp [walkLoop, hp, hfull, hf1, chSend]
          | succ s =>
            simp only [walkLoop, hp, hfull, if_true, chSend, List.nil_append]
            rw [walkLoop_sent_accum chunkSize find refsMap rest (Option.some s) [] [buf ++ [c]],
              walkLoop_sent_accum chunkSize find refsMap rest Option.none [] [buf ++ [c]]]
            simp [ih [] s, List.take_succ_cons]
        · simp only [walkLoop, hp, hfull, if_false]
          exact ih (buf ++ [c]) k

/-- When the run has no git error (the `load_all` loop succeeds), the
walker loop returns `Ok(())` for every channel state — a dropped receiver
never turns into an error or a panic. -/
theorem walkLoop_dropped_ok (chunkSize : Nat) (find : Nat → Except GitError Commit)
    (refsMap : List (Nat × List String)) :
    ∀ (oids : List (Except GitError Nat)) (ch : ChannelState)
      (buf : List Commit) (sent : List (List Commit)) (acc l : List Commit),
      loadAllLoop find refsMap acc oids = Except.ok l →
      (walkLoop chunkSize find refsMap ch buf sent oids).2.2 = Except.ok () := by
  intro oids
  induction oids with
  | nil =>
    intro ch buf sent acc l _
    by_cases hb : buf.isEmpty
    · simp [walkLoop, hb]
    · rcases hs : chSend ch with ⟨ok, ch'⟩
      cases ok <;> simp [walkLoop, hb, hs]
  | cons head rest ih =>
    intro ch buf sent acc l h
    cases head with
    | error e => simp [loadAllLoop] at h
    | ok oid =>
      simp only [loadAllLoop] at h
      cases hp : processOid find refsMap oid with
      | error e => rw [hp] at h; exact absurd h (by simp)
      | ok c =>
        rw [hp] at h
        by_cases hfull : chunkSize ≤ (buf ++ [c]).length
        · rcases hs : chSend ch with ⟨ok, ch'⟩
          cases ok with
          | true =>
            simp only [walkLoop, hp, hfull, if_true, hs]
            exact ih ch' [] (sent ++ [buf ++ [c]]) (acc ++ [c]) l h
          | false =>
            have hf1 : chunkSize ≤ buf.length + 1 := by simpa using hfull
            rcases hs2 : chSend ch' with ⟨ok2, ch''⟩
            cases ok2 <;> simp [walkLoop, hp, hfull, hf1, hs, hs2]
        · simp only [walkLoop, hp, hfull, if_false]
          exact ih ch (buf ++ [c]) sent (acc ++ [c]) l h

/-- C6: a background producer whose receiving channel end was dropped
(after `k` accepted sends) delivers exactly the first `k` chunks of the
full stream — it observes the send failure and stops enqueueing further
chunks — and, when the repository walk itself raises no error, it still
exits with `Ok(())` (no panic, no blocking: the loop is total and the
failed sends are ignored).  Likewise the one-shot background send of
`DiffView::start_loading` (`let _ = tx.send(result)`) completes normally
when the channel is orphaned, delivering nothing. -/
theorem orphaned_channel_producer_safe :
    (∀ (chunkSize : Nat) (find : Nat → Except GitError Commit)
        (refsMap : List (Nat × List String)) (oids : List (Except GitError Nat)) (k : Nat),
        (CommitWalker.walk chunkSize find refsMap (Option.some k) oids).1 =
          (CommitWalker.walk chunkSize find refsMap Option.none oids).1.take k) ∧
    (∀ (chunkSize : Nat) (find : Nat → Except GitError Commit)
        (refsMap : List (Nat × List String)) (oids : List (Except GitError Nat))
        (l : List Commit) (k : Nat),
        CommitWalker.load_all find refsMap oids = Except.ok l →
        (CommitWalker.walk chunkSize find refsMap (Option.some k) oids).2.2 =
          Except.ok ()) ∧
    (∀ (α : Type) (r : α), backgroundSendTask r (Option.some 0) = (Option.some 0, ())) := by
  refine ⟨?_, ?_, ?_⟩
  · intro chunkSize find refsMap oids k
    exact walkLoop_dropped_take chunkSize find refsMap oids [] k
  · intro chunkSize find refsMap oids l k h
    exact walkLoop_dropped_ok chunkSize find refsMap oids (Option.some k) [] [] [] l
      (by simpa [CommitWalker.load_all] using h)
  · intro α r; rfl

/-- Witness for C6: 5 commits, chunk size 2, receiver dropped after one
chunk — only the first chunk is delivered and the producer exits
`Ok(())`; the orphaned one-shot send also completes. -/
theorem orphaned_channel_producer_safe_witness :
    (CommitWalker.walk 2 findDemo [] (Option.some 1) oids5).1 =
      (CommitWalker.walk 2 findDemo [] Option.none oids5).1.take 1 ∧
    (CommitWalker.walk 2 findDemo [] (Option.some 1) oids5).2.2 = Except.ok () ∧
    backgroundSendTask (Except.error "orphaned" : Except String Commit) (Option.some 0) =
      (Option.some 0, ()) :=
  ⟨orphaned_channel_producer_safe.1 2 findDemo [] oids5 1,
    orphaned_channel_producer_safe.2.1 2 findDemo [] oids5 demoLoaded 1 (by decide),
    orphaned_channel_producer_safe.2.2 (Except String Commit) (Except.error "orphaned")⟩

/-- C8 counterexample: with three commits and selection at index 2,
entering search mode and typing the match-less query `z` switches the
display to the (empty) filtered sequence but leaves the selection at 2 —
no re-anchoring to a valid index of the newly displayed sequence happens
when the filter yields an empty result set. -/
theorem empty_filter_keeps_stale_selection :
    demoSel2Empty.is_searching = true ∧
    demoSel2Empty.displayed_commits = [] ∧
    demoSel2Empty.selected = Option.some 2 ∧
    ¬ 2 < demoSel2Empty.displayed_commits.length := by
  decide

/-- Indexing a `filterMap` of in-range lookups agrees with looking up the
index first. -/
theorem filterMap_get (commits : List Commit) :
    ∀ (idxs : List Nat), (∀ j ∈ idxs, j < commits.length) →
      ∀ i : Nat, (idxs.filterMap (fun j => commits.get? j)).get? i =
        (idxs.get? i).bind (fun j => commits.get? j) := by
  intro idxs
  induction idxs with
  | nil => intro _ i; simp
  | cons j t ih =>
    intro h i
    have hj : j < commits.length := h j (by simp)
    have hc : commits[j]? = Option.some (commits.get ⟨j, hj⟩) := by
      simp [List.getElem?_eq_getElem hj, List.get_eq_getElem]
    have ht : ∀ x ∈ t, x < commits.length := fun x hx => h x (by simp [hx])
    cases i with
    | zero => simp [List.filterMap_cons, hc]
    | succ n =>
      have ih2 := ih ht n
      simp only [List.get?_eq_getElem?] at ih2
      simp [List.filterMap_cons, hc, ih2]

/-- In every state whose filtered indices are in range (as every state
the code constructs is), `selected_commit` is the entry of the currently
*displayed* sequence at the stored selection index. -/
theorem selected_commit_eq_displayed_get (v : MainView) (i : Nat)
    (hsel : v.selected = Option.some i)
    (hwf : ∀ j ∈ v.filtered_commits, j < v.commits.length) :
    v.selected_commit = v.displayed_commits.get? i := by
  unfold MainView.selected_commit MainView.displayed_commits
  rw [hsel]
  by_cases hs : v.is_searching
  · simp only [hs, if_true, Option.some_bind]
    exact (filterMap_get v.commits v.filtered_commits hwf i).symm
  · simp [hs]

/-- C8 (amended): the selection index is interpreted relative to the
currently displayed sequence (`selected_commit` reads the displayed
sequence at the stored index); re-filtering re-anchors the selection to
index 0 whenever the filter result is non-empty, and leaves the selection
unchanged — possibly beyond the displayed sequence — when the filter
yields an empty result; leaving search mode (Escape) re-anchors the
selection to index 0; Enter changes the selection not at all. -/
theorem selection_reanchor_behavior :
    (∀ v : MainView,
      ((MainView.update_search_filter v).filtered_commits.isEmpty = false →
        (MainView.update_search_filter v).selected = Option.some 0) ∧
      ((MainView.update_search_filter v).filtered_commits.isEmpty = true →
        (MainView.update_search_filter v).selected = v.selected)) ∧
    (∀ v : MainView, (MainView.exit_search_mode v).selected = Option.some 0) ∧
    (∀ v : MainView, ((MainView.handle_key v Key.enter).1).selected = v.selected) ∧
    (∀ (v : MainView) (i : Nat),
      v.selected = Option.some i →
      (∀ j ∈ v.filtered_commits, j < v.commits.length) →
      v.selected_commit = v.displayed_commits.get? i) := by
  refine ⟨?_, ?_, ?_, ?_⟩
  · intro v
    unfold MainView.update_search_filter
    by_cases hq : strIsEmpty v.search_query
    · simp [hq]
    · simp only [hq, if_false]
      by_cases hf : ((v.commits.enum.filter
          (fun p => MainView.matchesQuery (strToLower v.search_query) p.2)).map
            (fun p => p.1)).isEmpty
      · simp [hf]
      · simp [hf]
  · intro v
    simp [MainView.exit_search_mode]
  · intro v
    unfold MainView.handle_key
    by_cases hm : v.search_mode == SearchMode.Active
    · simp [hm]
    · simp only [hm, if_false]
      cases hc : v.selected_commit <;> simp [hc]
  · intro v i hsel hwf
    exact selected_commit_eq_displayed_get v i hsel hwf

/-- Witness for C8's amended theorem at concrete inputs. -/
theorem selection_reanchor_behavior_witness :
    (MainView.update_search_filter demoSearchFix).selected = Option.some 0 ∧
    (MainView.update_search_filter demoSel2Empty).selected = demoSel2Empty.selected ∧
    (MainView.exit_search_mode demoSearchFix).selected = Option.some 0 ∧
    ((MainView.handle_key demoSearchFix Key.enter).1).selected = demoSearchFix.selected ∧
    demoSel2Empty.selected_commit = demoSel2Empty.displayed_commits.get? 2 :=
  ⟨(selection_reanchor_behavior.1 demoSearchFix).1 (by decide),
    (selection_reanchor_behavior.1 demoSel2Empty).2 (by decide),
    selection_reanchor_behavior.2.1 demoSearchFix,
    selection_reanchor_behavior.2.2.1 demoSearchFix,
    selection_reanchor_behavior.2.2.2 demoSel2Empty 2 (by decide) (by decide)⟩

/-- C10: whenever the stored selection index lies outside the currently
displayed sequence — e.g. the active filter matched nothing, or fewer
commits than a previously stored index — `selected_commit` returns
`None` (every lookup is a total `Option`-returning `.get`, so nothing can
panic), for every commit list, filter state with in-range indices, and
selection index. -/
theorem selected_commit_out_of_range_none :
    ∀ (v : MainView) (i : Nat),
      v.selected = Option.some i →
      (∀ j ∈ v.filtered_commits, j < v.commits.length) →
      v.displayed_commits.length ≤ i →
      v.selected_commit = Option.none := by
  intro v i hsel hwf hlen
  rw [selected_commit_eq_displayed_get v i hsel hwf]
  exact List.get?_eq_none.mpr hlen

/-- Witness for C10: the filter `z` over three commits matches nothing,
the stale selection index 2 is outside the empty displayed sequence, and
`selected_commit` returns `None`. -/
theorem selected_commit_out_of_range_none_witness :
    demoSel2Empty.selected_commit = Option.none :=
  selected_commit_out_of_range_none demoSel2Empty 2 (by decide) (by decide) (by decide)

/-- C7 (amended): a stage/unstage request installs a fresh, data-less
refresh-trigger channel (clearing the error field) whose pulse the
mutation task sends on completion whether or not the mutation succeeded;
when `update()` observes the pulse it clears the trigger and starts a
brand-new status query — but the current snapshot and items are retained,
not discarded, until the new query's result arrives, at which point the
snapshot is replaced and the display items rebuilt wholesale from the new
result.  Mutation and refresh are thus two sequential async round-trips,
not one atomic operation. -/
theorem status_mutation_refresh_behavior :
    (∀ (v : StatusView) (item : DisplayItem) (e : StatusEntry) (pulse : List Unit),
        v.selected_item = Option.some item → item.is_header = false →
        item.entry = Option.some e →
        StatusView.stage_unstage_key v pulse =
          { v with refresh_trigger := Option.some pulse, error := Option.none }) ∧
    (∀ (r₁ r₂ : Except String Unit) (ch : ChannelState),
        StatusView.mutationTask r₁ ch = StatusView.mutationTask r₂ ch) ∧
    (∀ (v : StatusView) (rest : List Unit),
        v.refresh_trigger = Option.some (() :: rest) →
        StatusView.update v [] =
          { v with
            refresh_trigger := Option.none,
            receiver := Option.some [],
            loading := true }) ∧
    (∀ (v : StatusView) (st : Status) (rest : List (Except String Status)),
        v.refresh_trigger = Option.none →
        v.receiver = Option.some (Except.ok st :: rest) →
        StatusView.update v [] = StatusView.build_items
          { v with
            receiver := Option.some rest,
            loading := false,
            status := Option.some st }) := by
  refine ⟨?_, ?_, ?_, ?_⟩
  · intro v item e pulse h1 h2 h3
    unfold StatusView.stage_unstage_key
    simp only [h1, h2, h3]
    simp
  · intro r₁ r₂ ch; rfl
  · intro v rest h
    unfold StatusView.update
    simp only [h, StatusView.start_loading]
  · intro v st rest h1 h2
    unfold StatusView.update
    simp only [h1, h2]

/-- Witness for C7's amended theorem at concrete inputs. -/
theorem status_mutation_refresh_behavior_witness :
    StatusView.stage_unstage_key svDemoSel1 [()] =
      { svDemoSel1 with refresh_trigger := Option.some [()], error := Option.none } ∧
    StatusView.mutationTask (Except.ok ()) Option.none =
      StatusView.mutationTask (Except.error "stage failed") Option.none ∧
    StatusView.update svDemo [] =
      { svDemo with
        refresh_trigger := Option.none,
        receiver := Option.some [],
        loading := true } ∧
    StatusView.update svDemo2 [] = StatusView.build_items
      { svDemo2 with
        receiver := Option.some [],
        loading := false,
        status := Option.some demoStatus2 } :=
  ⟨status_mutation_refresh_behavior.1 svDemoSel1
      (DisplayItem.mkEntry StatusSection.Unstaged demoEntry) demoEntry [()]
      (by decide) (by decide) (by decide),
    status_mutation_refresh_behavior.2.1 (Except.ok ()) (Except.error "stage failed")
      Option.none,
    status_mutation_refresh_behavior.2.2.1 svDemo [] (by decide),
    status_mutation_refresh_behavior.2.2.2 svDemo2 demoStatus2 [] (by decide) (by decide)⟩

/-- Each scroll operation keeps a clamped offset clamped, and touches
neither the lines nor the loading flag. -/
theorem applyScroll_invariant (v : DiffView) (op : ScrollOp)
    (h : v.scroll_offset ≤ v.lines.length - 1) :
    (applyScroll v op).scroll_offset ≤ (applyScroll v op).lines.length - 1 ∧
    (applyScroll v op).lines = v.lines ∧
    (applyScroll v op).loading = v.loading := by
  cases op <;>
    simp [applyScroll, DiffView.scroll_down, DiffView.scroll_up, DiffView.page_down,
      DiffView.page_up, DiffView.scroll_to_top, DiffView.scroll_to_bottom] <;>
    omega

/-- The clamping invariant holds along any sequence of scroll
operations. -/
theorem foldl_scroll_invariant (ops : List ScrollOp) :
    ∀ v : DiffView, v.scroll_offset ≤ v.lines.length - 1 →
      (ops.foldl applyScroll v).scroll_offset ≤ (ops.foldl applyScroll v).lines.length - 1 ∧
      (ops.foldl applyScroll v).lines = v.lines ∧
      (ops.foldl applyScroll v).loading = v.loading := by
  induction ops with
  | nil => intro v h; exact ⟨h, rfl, rfl⟩
  | cons op rest ih =>
    intro v h
    have hstep := applyScroll_invariant v op h
    have hrest := ih (applyScroll v op) hstep.1
    refine ⟨?_, ?_, ?_⟩
    · simpa [List.foldl] using hrest.1
    · simp only [List.foldl]
      rw [hrest.2.1, hstep.2.1]
    · simp only [List.foldl]
      rw [hrest.2.2, hstep.2.2]

/-- C9: for every line sequence and every sequence of scroll operations
(scroll-by-one, page by the fixed page size 20, jump to top/bottom)
starting from offset 0, the offset stays in `[0, lines.len()-1]`
(`Nat` subtraction: for an empty sequence it stays 0, shown separately),
the lines and the loading flag are never touched, and every scroll
operation's effect on the offset is independent of the loading flag —
scrolling is a pure transition on the scroll offset only. -/
theorem diff_scroll_clamped :
    (∀ (ops : List ScrollOp) (lines : List String) (b : Bool),
      (ops.foldl applyScroll { lines := lines, scroll_offset := 0, loading := b }).scroll_offset
          ≤ lines.length - 1 ∧
      (ops.foldl applyScroll { lines := lines, scroll_offset := 0, loading := b }).lines
          = lines ∧
      (ops.foldl applyScroll { lines := lines, scroll_offset := 0, loading := b }).loading
          = b) ∧
    (∀ (ops : List ScrollOp) (b : Bool),
      (ops.foldl applyScroll { lines := [], scroll_offset := 0, loading := b }).scroll_offset
          = 0) ∧
    (∀ (v : DiffView) (op : ScrollOp) (b : Bool),
      (applyScroll { v with loading := b } op).scroll_offset =
        (applyScroll v op).scroll_offset) := by
  refine ⟨?_, ?_, ?_⟩
  · intro ops lines b
    have h := foldl_scroll_invariant ops { lines := lines, scroll_offset := 0, loading := b }
      (by simp)
    exact ⟨by simpa [h.2.1] using h.1, h.2.1, h.2.2⟩
  · intro ops b
    have h := foldl_scroll_invariant ops { lines := [], scroll_offset := 0, loading := b }
      (by simp)
    have := h.1
    rw [h.2.1] at this
    simpa using this
  · intro v op b
    cases op <;>
      simp [applyScroll, DiffView.scroll_down, DiffView.scroll_up, DiffView.page_down,
        DiffView.page_up, DiffView.scroll_to_top, DiffView.scroll_to_bottom]

end RustTig
